import Mathlib

/-
Verification development for the SuperDARN real-time tracking logger
(track_files.py).  The script listens on a socket for JSON radar packets,
derives echo counters from each packet, and appends one timestamped row per
packet to a per-site, per-day CSV file.

The embedding below translates the source into Lean: the JSON packet becomes a
structure, the filesystem becomes an explicit state (a set of directories and
a map from paths to lists of CSV rows), fallible OS calls return `Except`, and
the wall clock is passed explicitly as a `DateTime` argument.
-/

/-- Model of the JSON packet received from the socket.  The source accesses
the keys `site_name`, `beam`, `velocity` and `g_scatter`; velocity samples are
numeric and only their count matters, so they are embedded as integers. -/
structure JsonPacket where
  site_name : String
  beam : Int
  velocity : List Int
  g_scatter : List Int
deriving Repr, DecidableEq

/-- Source constant `OUTPUT_DIR = ".\output"` (a Python string with a literal
backslash). -/
def OUTPUT_DIR : String := ".\\output"

/-- Source constant `CSV_HEADERS`. -/
def CSV_HEADERS : List String :=
  ["Timestamp", "Beam_Number", "Num_Echoes", "Num_Ionosph_Echoes", "Num_Gnd_sctr_Echoes"]

/-- Source constant `RADARS` (unused for validation in the source). -/
def RADARS : List String :=
  ["sas", "rkn", "pgr", "cly", "inv", "bks", "fhe", "fhw", "kap", "gbr",
   "cve", "cvw", "mcm", "kod", "hok", "hkw", "wal"]

/-- Translation of `get_num_echoes`: total echoes is `len(velocity)`, ground
scatter echoes is `g_scatter.count(1)`, ionospheric echoes is
`g_scatter.count(0)`; returned in source order
`(num_echoes, num_ionosph_echoes, num_grd_sctr_echoes)`. -/
def get_num_echoes (json_packet : JsonPacket) : Nat × Nat × Nat :=
  let grd_sctr_flags := json_packet.g_scatter
  let num_echoes := json_packet.velocity.length
  let num_grd_sctr_echoes := grd_sctr_flags.count 1
  let num_ionosph_echoes := grd_sctr_flags.count 0
  (num_echoes, num_ionosph_echoes, num_grd_sctr_echoes)

/-- Wall-clock instant as captured by `datetime.datetime.now()`; only the
fields used by the two `strftime` format strings are modelled. -/
structure DateTime where
  year : Nat
  month : Nat
  day : Nat
  hour : Nat
  minute : Nat
  second : Nat
  microsecond : Nat
deriving Repr, DecidableEq

/-- Calendar date of a wall-clock instant. -/
def DateTime.date (t : DateTime) : Nat × Nat × Nat := (t.year, t.month, t.day)

/-- Field bounds under which the `strftime` fields fit their minimum widths
exactly (every real `datetime` value satisfies these). -/
def DateTime.Valid (t : DateTime) : Prop :=
  t.year < 10000 ∧ t.month < 100 ∧ t.day < 100 ∧ t.hour < 100 ∧
  t.minute < 100 ∧ t.second < 100 ∧ t.microsecond < 1000000

instance (t : DateTime) : Decidable t.Valid := by
  unfold DateTime.Valid; infer_instance

/-- Decimal digits of a natural number, most significant first (fuel-based so
that it reduces definitionally; the fuel `n + 1` always suffices). -/
def natDigitsAux : Nat → Nat → List Char
  | 0, _ => []
  | f + 1, n =>
    if n < 10 then [Nat.digitChar n]
    else natDigitsAux f (n / 10) ++ [Nat.digitChar (n % 10)]

/-- Decimal digit string of `n`, most significant digit first. -/
def natDigits (n : Nat) : List Char := natDigitsAux (n + 1) n

/-- Zero-padded decimal rendering, the semantics of Python `%04d`-style
fields used by `strftime`: pad with leading zeros up to `width`, never
truncate. -/
def padZeros (width n : Nat) : String :=
  String.mk (List.replicate (width - (natDigits n).length) '0' ++ natDigits n)

/-- Translation of `now.strftime("%Y-%m-%d")` (the daily directory name). -/
def strftime_ymd (t : DateTime) : String :=
  padZeros 4 t.year ++ "-" ++ padZeros 2 t.month ++ "-" ++ padZeros 2 t.day

/-- Translation of `now.strftime('%Y-%m-%d-%H:%M:%S.%f')` (the row
timestamp): date, then hour, minute, second, and six microsecond digits. -/
def strftime_full (t : DateTime) : String :=
  strftime_ymd t ++ "-" ++ padZeros 2 t.hour ++ ":" ++ padZeros 2 t.minute ++
  ":" ++ padZeros 2 t.second ++ "." ++ padZeros 6 t.microsecond

/-- Numeric value of a decimal digit string (auxiliary, used to state that
the padded fields still denote the original number). -/
def digitsVal (cs : List Char) : Nat :=
  cs.foldl (fun acc c => acc * 10 + (c.toNat - 48)) 0

/-- Filesystem state seen by the script: the set of existing directories and
the contents of existing files.  A CSV file is a list of rows, each row the
list of cell strings passed to `csv.writer.writerow`. -/
structure FileSystem where
  dirs : List String
  files : String → Option (List (List String))

/-- Translation of `os.path.join` with a single separator character (the
script never normalises paths, so joining is pure concatenation). -/
def os_path_join (a b : String) : String := a ++ "/" ++ b

/-- Translation of `os.path.exists`: true when the path is an existing
directory or an existing file. -/
def os_path_exists (fs : FileSystem) (p : String) : Bool :=
  fs.dirs.contains p || (fs.files p).isSome

/-- Directory part of a path: everything before the last separator. -/
def dirname (p : String) : String :=
  String.mk (((p.data.reverse.dropWhile (fun c => c ≠ '/')).drop 1).reverse)

/-- Translation of `os.mkdir`: non-recursive directory creation.  It fails if
the path already exists (FileExistsError) or if the parent is not an existing
directory (FileNotFoundError). -/
def os_mkdir (fs : FileSystem) (p : String) : Except String FileSystem :=
  if os_path_exists fs p then .error "FileExistsError"
  else if fs.dirs.contains (dirname p) then
    .ok { fs with dirs := p :: fs.dirs }
  else .error "FileNotFoundError"

/-- Opening a file for writing (`open(path, mode='w')` plus one `writerow`):
truncate/create the file with the single given row.  Fails when the parent
directory does not exist. -/
def file_write_single_row (fs : FileSystem) (path : String) (row : List String) :
    Except String FileSystem :=
  if fs.dirs.contains (dirname path) then
    .ok { fs with files := fun q => if q = path then some [row] else fs.files q }
  else .error "FileNotFoundError"

/-- Opening a file for appending (`open(path, 'a')` plus one `writerow`):
create the file if absent, then add the row at the end.  Fails when the
parent directory does not exist. -/
def file_append_row (fs : FileSystem) (path : String) (row : List String) :
    Except String FileSystem :=
  if fs.dirs.contains (dirname path) then
    .ok { fs with files := fun q =>
            if q = path then some (((fs.files path).getD []) ++ [row]) else fs.files q }
  else .error "FileNotFoundError"

/-- Translation of `init_csv_file`: create the CSV and write the fixed header
row. -/
def init_csv_file (fs : FileSystem) (path : String) : Except String FileSystem :=
  file_write_single_row fs path CSV_HEADERS

/-- Translation of `write_csv`.  The wall clock `now` is an explicit argument
(the source calls `datetime.now()`); every OS interaction threads the
filesystem state.  Steps mirror the source: format the timestamp, create the
day directory if missing, create the site CSV with its header if missing,
compute the counters and append one row
`[timestamp, beam, num_echoes, num_ionosph_echoes, num_grd_sctr_echoes]`. -/
def write_csv (fs : FileSystem) (now : DateTime) (json_packet : JsonPacket) :
    Except String FileSystem :=
  let timestamp := strftime_full now
  let site_name := json_packet.site_name
  let subdir_name := strftime_ymd now
  let subdir_path := os_path_join OUTPUT_DIR subdir_name
  (if !os_path_exists fs subdir_path then os_mkdir fs subdir_path else pure fs) >>= fun fs1 =>
  let csv_path := os_path_join subdir_path (site_name ++ ".csv")
  (if !os_path_exists fs1 csv_path then init_csv_file fs1 csv_path else pure fs1) >>= fun fs2 =>
  let counts := get_num_echoes json_packet
  file_append_row fs2 csv_path
    [timestamp, toString json_packet.beam,
     toString counts.1, toString counts.2.1, toString counts.2.2]

/-- Day-directory path computed by `write_csv` for a given instant. -/
def subdirPath (now : DateTime) : String := os_path_join OUTPUT_DIR (strftime_ymd now)

/-- CSV file path computed by `write_csv` for a given instant and site. -/
def csvPath (now : DateTime) (site : String) : String :=
  os_path_join (subdirPath now) (site ++ ".csv")

/-- The data row appended by `write_csv` for a given instant and packet. -/
def mkRow (now : DateTime) (p : JsonPacket) : List String :=
  [strftime_full now, toString p.beam, toString (get_num_echoes p).1,
   toString (get_num_echoes p).2.1, toString (get_num_echoes p).2.2]

/-- One event delivered to the receive loop of `start_listening`: either a
decoded packet (with the wall-clock instant at which it is processed) or a
KeyboardInterrupt raised while blocked in `sio.receive()`. -/
inductive RecvEvent where
  | packet (now : DateTime) (p : JsonPacket)
  | interrupt
deriving Repr, DecidableEq

/-- One iteration of the `while True` body of `start_listening`.  Returns the
new filesystem, the lines printed, and whether the loop proceeds to another
iteration.  A packet is printed and written; an exception from `write_csv`
is not caught (only `KeyboardInterrupt` is), so it ends the loop.  A
`KeyboardInterrupt` is caught by the `except` clause, which prints
"Stopping..." and — having no break or return — falls through to the next
iteration of `while True`. -/
def loop_body (fs : FileSystem) (ev : RecvEvent) : FileSystem × List String × Bool :=
  match ev with
  | .packet now p =>
    match write_csv fs now p with
    | .ok fs1 => (fs1, ["Received data from radar $" ++ p.site_name], true)
    | .error _ => (fs, ["Received data from radar $" ++ p.site_name], false)
  | .interrupt => (fs, ["Stopping..."], true)

/-- Run of the receive loop over a finite schedule of events.  Returns the
final filesystem, the number of receive iterations performed, and whether the
loop is still running (awaiting the next `sio.receive()`) afterwards. -/
def run_recv_loop (fs : FileSystem) : List RecvEvent → FileSystem × Nat × Bool
  | [] => (fs, 0, true)
  | ev :: rest =>
    match loop_body fs ev with
    | (fs1, _, true) =>
      let r := run_recv_loop fs1 rest
      (r.1, r.2.1 + 1, r.2.2)
    | (fs1, _, false) => (fs1, 1, false)

/-- Outcome of the `__main__` block: either print a diagnostic and exit
without connecting, or start the listener on the configured address. -/
inductive MainOutcome where
  | exitWithMessage (msg : String)
  | listen (addr : String)
deriving Repr, DecidableEq

/-- Translation of the `__main__` block: `os.getenv('SOCKET_ADDR')` is the
argument; when it is `none` the script prints the diagnostic and calls
`exit()` before any connection is attempted, otherwise it calls
`start_listening(socket_addr)`. -/
def main_entry (socket_addr : Option String) : MainOutcome :=
  match socket_addr with
  | none => .exitWithMessage "No 'SOCKET_ADDR' environment variable defined!"
  | some addr => .listen addr

/-- Repeated invocation of the Record Writer, one `write_csv` call per
scheduled packet, stopping at the first failure (used to state multi-call
properties such as header idempotence). -/
def write_calls (fs : FileSystem) : List (DateTime × JsonPacket) → Except String FileSystem
  | [] => .ok fs
  | c :: rest =>
    match write_csv fs c.1 c.2 with
    | .ok fs1 => write_calls fs1 rest
    | .error e => .error e

/-- Concrete instant from the specification scenario,
2024-06-01T14:32:07.512300. -/
def sample_now : DateTime := ⟨2024, 6, 1, 14, 32, 7, 512300⟩

/-- A later instant on the same calendar day as `sample_now`. -/
def sample_now_b : DateTime := ⟨2024, 6, 1, 15, 0, 0, 0⟩

/-- An instant on the next calendar day. -/
def sample_now2 : DateTime := ⟨2024, 6, 2, 9, 5, 0, 1⟩

/-- Concrete packet from the specification scenario: ten velocity samples
and flags `[1,1,0,0,1,0,0,1,0,0]`. -/
def sample_packet : JsonPacket :=
  ⟨"sas", 7, [3, 1, 4, 1, 5, 9, 2, 6, 5, 3], [1, 1, 0, 0, 1, 0, 0, 1, 0, 0]⟩

/-- Concrete packet whose flag list holds a value of 2 alongside 0/1. -/
def sample_packet_bad : JsonPacket := ⟨"sas", 7, [11, 12, 13], [1, 2, 0]⟩

/-- Packet with the same flag list as `sample_packet_bad` but different
velocity samples, beam and site. -/
def sample_packet_alt : JsonPacket := ⟨"rkn", -3, [10, 20], [1, 2, 0]⟩

/-- Packet with the same velocity length as `sample_packet_bad` but
different flags, beam and site. -/
def sample_packet_len3 : JsonPacket := ⟨"pgr", 0, [7, 8, 9], []⟩

/-- Initial filesystem: the output root exists and is empty. -/
def sample_fs : FileSystem := ⟨[OUTPUT_DIR], fun _ => none⟩

/-- Filesystem in which the day directory and the site CSV for
`sample_now`/`sas` already exist, the CSV holding a header and one row. -/
def sample_fs2 : FileSystem :=
  ⟨[OUTPUT_DIR, subdirPath sample_now],
   fun q => if q = csvPath sample_now "sas" then
              some [CSV_HEADERS, ["2024-06-01-10:00:00.000000", "3", "2", "1", "1"]]
            else none⟩

/-- Completely empty filesystem: even the output root is missing. -/
def fs_empty : FileSystem := ⟨[], fun _ => none⟩

/-- The fuel argument of `natDigitsAux` is irrelevant as long as it exceeds
the value being rendered. -/
theorem natDigitsAux_congr (n : Nat) :
    ∀ f g, n < f → n < g → natDigitsAux f n = natDigitsAux g n := by
  induction n using Nat.strong_induction_on with
  | _ n ih =>
    intro f g hf hg
    cases f with
    | zero => omega
    | succ f =>
      cases g with
      | zero => omega
      | succ g =>
        simp only [natDigitsAux]
        by_cases h10 : n < 10
        · rw [if_pos h10, if_pos h10]
        · rw [if_neg h10, if_neg h10]
          have hlt : n / 10 < n := Nat.div_lt_self (by omega) (by omega)
          rw [ih (n / 10) hlt f g (by omega) (by omega)]

/-- Unfolding equation for `natDigits`. -/
theorem natDigits_eq (n : Nat) :
    natDigits n =
      if n < 10 then [Nat.digitChar n]
      else natDigits (n / 10) ++ [Nat.digitChar (n % 10)] := by
  show natDigitsAux (n + 1) n = _
  simp only [natDigitsAux]
  by_cases h10 : n < 10
  · rw [if_pos h10, if_pos h10]
  · rw [if_neg h10, if_neg h10]
    have hlt : n / 10 < n := Nat.div_lt_self (by omega) (by omega)
    rw [natDigitsAux_congr (n / 10) n (n / 10 + 1) (by omega) (by omega)]
    rfl

/-- A decimal digit string is never empty. -/
theorem natDigits_ne_nil (n : Nat) : natDigits n ≠ [] := by
  rw [natDigits_eq]
  by_cases h10 : n < 10
  · rw [if_pos h10]; simp
  · rw [if_neg h10]; simp

/-- Code point of a decimal digit character. -/
theorem digitChar_toNat (d : Nat) (h : d < 10) : (Nat.digitChar d).toNat = 48 + d := by
  interval_cases d <;> decide

/-- Every character produced by `natDigits` is a decimal digit ('0'..'9'). -/
theorem natDigits_digit (n : Nat) :
    ∀ c ∈ natDigits n, 48 ≤ c.toNat ∧ c.toNat ≤ 57 := by
  induction n using Nat.strong_induction_on with
  | _ n ih =>
    rw [natDigits_eq]
    by_cases h10 : n < 10
    · rw [if_pos h10]
      intro c hc
      rw [List.mem_singleton] at hc
      subst hc
      rw [digitChar_toNat n h10]
      omega
    · rw [if_neg h10]
      intro c hc
      rcases List.mem_append.1 hc with hl | hr
      · exact ih (n / 10) (Nat.div_lt_self (by omega) (by omega)) c hl
      · rw [List.mem_singleton] at hr
        subst hr
        rw [digitChar_toNat (n % 10) (Nat.mod_lt _ (by omega))]
        omega

/-- A number below `10 ^ w` needs at most `w` decimal digits. -/
theorem natDigits_length_le (n : Nat) :
    ∀ w, 1 ≤ w → n < 10 ^ w → (natDigits n).length ≤ w := by
  induction n using Nat.strong_induction_on with
  | _ n ih =>
    intro w hw hn
    rw [natDigits_eq]
    by_cases h10 : n < 10
    · rw [if_pos h10]
      simpa using hw
    · rw [if_neg h10]
      have hw2 : 2 ≤ w := by
        by_contra hc
        have hweq : w = 1 := by omega
        subst hweq
        simp [pow_one] at hn
        omega
      have hpow : (10 : Nat) ^ w = 10 ^ (w - 1) * 10 := by
        rw [← pow_succ]
        congr 1
        omega
      have hdiv : n / 10 < 10 ^ (w - 1) := by
        rw [Nat.div_lt_iff_lt_mul (by omega)]
        omega
      have hrec := ih (n / 10) (Nat.div_lt_self (by omega) (by omega)) (w - 1) (by omega) hdiv
      simp only [List.length_append, List.length_singleton]
      omega

/-- Folding the decimal-accumulation step over any digit list shifts the
accumulator by one decimal place per digit. -/
theorem foldl_digitsVal (cs : List Char) :
    ∀ acc : Nat,
      List.foldl (fun a c => a * 10 + (c.toNat - 48)) acc cs =
        acc * 10 ^ cs.length + digitsVal cs := by
  induction cs with
  | nil => intro acc; simp [digitsVal]
  | cons c cs ih =>
    intro acc
    simp only [List.foldl_cons, digitsVal, List.length_cons]
    rw [ih (acc * 10 + (c.toNat - 48)), ih (0 * 10 + (c.toNat - 48))]
    have hpow : (10 : Nat) ^ (cs.length + 1) = 10 ^ cs.length * 10 := by
      rw [pow_succ]
    rw [hpow]
    ring_nf

/-- The digit string of `n` evaluates back to `n`. -/
theorem digitsVal_natDigits (n : Nat) : digitsVal (natDigits n) = n := by
  induction n using Nat.strong_induction_on with
  | _ n ih =>
    rw [natDigits_eq]
    by_cases h10 : n < 10
    · rw [if_pos h10]
      simp only [digitsVal, List.foldl_cons, List.foldl_nil]
      rw [digitChar_toNat n h10]
      omega
    · rw [if_neg h10]
      have hmod : n % 10 < 10 := Nat.mod_lt _ (by omega)
      show List.foldl _ 0 (natDigits (n / 10) ++ [Nat.digitChar (n % 10)]) = n
      rw [List.foldl_append]
      have hval : List.foldl (fun a c => a * 10 + (c.toNat - 48)) 0 (natDigits (n / 10)) = n / 10 :=
        ih (n / 10) (Nat.div_lt_self (by omega) (by omega))
      rw [hval]
      simp only [List.foldl_cons, List.foldl_nil]
      rw [digitChar_toNat (n % 10) hmod]
      omega

/-- Leading zeros do not change the decimal value. -/
theorem digitsVal_replicate_zero (k : Nat) (l : List Char) :
    digitsVal (List.replicate k '0' ++ l) = digitsVal l := by
  induction k with
  | zero => simp
  | succ k ih =>
    show digitsVal ('0' :: (List.replicate k '0' ++ l)) = digitsVal l
    simpa only [digitsVal, List.foldl_cons] using ih

/-- The character list underlying `padZeros`. -/
theorem padZeros_data (w n : Nat) :
    (padZeros w n).data = List.replicate (w - (natDigits n).length) '0' ++ natDigits n := rfl

/-- A zero-padded field still denotes the number it renders. -/
theorem digitsVal_padZeros (w n : Nat) : digitsVal (padZeros w n).data = n := by
  rw [padZeros_data, digitsVal_replicate_zero, digitsVal_natDigits]

/-- Zero-padded rendering is injective at any fixed width. -/
theorem padZeros_inj (w n1 n2 : Nat) (h : padZeros w n1 = padZeros w n2) : n1 = n2 := by
  have h1 := digitsVal_padZeros w n1
  rw [h, digitsVal_padZeros w n2] at h1
  omega

/-- A field whose value fits the width renders to exactly `width`
characters. -/
theorem padZeros_length (w n : Nat) (hw : 1 ≤ w) (h : n < 10 ^ w) :
    (padZeros w n).data.length = w := by
  rw [padZeros_data]
  have h1 := natDigits_length_le n w hw h
  have h2 : 1 ≤ (natDigits n).length := by
    have := natDigits_ne_nil n
    cases hne : natDigits n with
    | nil => exact absurd hne this
    | cons c cs => simp [hne]
  simp only [List.length_append, List.length_replicate]
  omega

/-- Every character of a zero-padded field is a decimal digit. -/
theorem padZeros_digit (w n : Nat) :
    ∀ c ∈ (padZeros w n).data, 48 ≤ c.toNat ∧ c.toNat ≤ 57 := by
  rw [padZeros_data]
  intro c hc
  rcases List.mem_append.1 hc with hl | hr
  · rw [List.eq_of_mem_replicate hl]
    decide
  · exact natDigits_digit n c hr

/-- A zero-padded field is never empty. -/
theorem padZeros_ne_nil (w n : Nat) : (padZeros w n).data ≠ [] := by
  rw [padZeros_data]
  intro h
  exact natDigits_ne_nil n (List.append_eq_nil.1 h).2

/-- Character-list decomposition of the daily directory name. -/
theorem strftime_ymd_data (t : DateTime) :
    (strftime_ymd t).data =
      (padZeros 4 t.year).data ++
        '-' :: ((padZeros 2 t.month).data ++ '-' :: (padZeros 2 t.day).data) := by
  simp [strftime_ymd, String.data_append, List.append_assoc]

/-- Character-list decomposition of the row timestamp. -/
theorem strftime_full_data (t : DateTime) :
    (strftime_full t).data =
      (padZeros 4 t.year).data ++
        '-' :: ((padZeros 2 t.month).data ++
          '-' :: ((padZeros 2 t.day).data ++
            '-' :: ((padZeros 2 t.hour).data ++
              ':' :: ((padZeros 2 t.minute).data ++
                ':' :: ((padZeros 2 t.second).data ++
                  '.' :: (padZeros 6 t.microsecond).data))))) := by
  simp [strftime_full, strftime_ymd, String.data_append, List.append_assoc]

/-- The daily directory name contains no path separator. -/
theorem slash_not_mem_ymd (t : DateTime) : '/' ∉ (strftime_ymd t).data := by
  rw [strftime_ymd_data]
  intro h
  have hslash : ('/').toNat = 47 := by decide
  have hdash : ('/' : Char) ≠ '-' := by decide
  rcases List.mem_append.1 h with h1 | h2
  · have := padZeros_digit 4 t.year '/' h1
    omega
  · rcases List.mem_cons.1 h2 with h3 | h4
    · exact hdash h3
    · rcases List.mem_append.1 h4 with h5 | h6
      · have := padZeros_digit 2 t.month '/' h5
        omega
      · rcases List.mem_cons.1 h6 with h7 | h8
        · exact hdash h7
        · have := padZeros_digit 2 t.day '/' h8
          omega

/-- A valid instant formats to the ten-character date `YYYY-MM-DD`. -/
theorem strftime_ymd_length (t : DateTime) (h : t.Valid) :
    (strftime_ymd t).data.length = 10 := by
  obtain ⟨hy, hm, hd, _, _, _, _⟩ := h
  have p4 : (10 : Nat) ^ 4 = 10000 := by norm_num
  have p2 : (10 : Nat) ^ 2 = 100 := by norm_num
  rw [strftime_ymd_data]
  simp only [List.length_append, List.length_cons]
  rw [padZeros_length 4 t.year (by omega) (by omega),
      padZeros_length 2 t.month (by omega) (by omega),
      padZeros_length 2 t.day (by omega) (by omega)]

/-- On valid instants, the date format determines the calendar date. -/
theorem strftime_ymd_inj (t1 t2 : DateTime) (h1 : t1.Valid) (h2 : t2.Valid)
    (h : strftime_ymd t1 = strftime_ymd t2) : t1.date = t2.date := by
  obtain ⟨hy1, hm1, hd1, _, _, _, _⟩ := h1
  obtain ⟨hy2, hm2, hd2, _, _, _, _⟩ := h2
  have p4 : (10 : Nat) ^ 4 = 10000 := by norm_num
  have p2 : (10 : Nat) ^ 2 = 100 := by norm_num
  have hdata := congrArg String.data h
  rw [strftime_ymd_data, strftime_ymd_data] at hdata
  have ly : (padZeros 4 t1.year).data.length = (padZeros 4 t2.year).data.length := by
    rw [padZeros_length 4 t1.year (by omega) (by omega),
        padZeros_length 4 t2.year (by omega) (by omega)]
  obtain ⟨hyear, hrest⟩ := List.append_inj hdata ly
  injection hrest with _ hrest
  have lm : (padZeros 2 t1.month).data.length = (padZeros 2 t2.month).data.length := by
    rw [padZeros_length 2 t1.month (by omega) (by omega),
        padZeros_length 2 t2.month (by omega) (by omega)]
  obtain ⟨hmonth, hrest2⟩ := List.append_inj hrest lm
  injection hrest2 with _ hday
  have ey := padZeros_inj 4 t1.year t2.year (String.ext hyear)
  have em := padZeros_inj 2 t1.month t2.month (String.ext hmonth)
  have ed := padZeros_inj 2 t1.day t2.day (String.ext hday)
  simp [DateTime.date, ey, em, ed]

/-- Character-list decomposition of `os.path.join`. -/
theorem os_path_join_data (a b : String) :
    (os_path_join a b).data = a.data ++ '/' :: b.data := by
  simp [os_path_join, String.data_append]

/-- Dropping a satisfying block on the left of `dropWhile`. -/
theorem dropWhile_append_all (p : Char → Bool) (xs ys : List Char)
    (h : ∀ x ∈ xs, p x) : (xs ++ ys).dropWhile p = ys.dropWhile p := by
  induction xs with
  | nil => rfl
  | cons c cs ih =>
    simp only [List.cons_append, List.dropWhile_cons]
    rw [if_pos (h c (by simp)), ih (fun x hx => h x (by simp [hx]))]

/-- The directory part of a joined path whose last component is
separator-free is the left operand. -/
theorem dirname_join (a b : String) (h : '/' ∉ b.data) :
    dirname (os_path_join a b) = a := by
  unfold dirname
  rw [os_path_join_data, List.reverse_append, List.reverse_cons, List.append_assoc]
  rw [dropWhile_append_all _ b.data.reverse _ ?hall]
  case hall =>
    intro x hx
    simp only [decide_eq_true_eq]
    intro heq
    subst heq
    exact h (List.mem_reverse.1 hx)
  · simp only [List.singleton_append, List.dropWhile_cons]
    rw [if_neg (by simp)]
    simp

/-- A joined path is strictly longer than its left operand. -/
theorem os_path_join_ne_left (a b : String) : os_path_join a b ≠ a := by
  intro h
  have := congrArg (fun s => s.data.length) h
  simp only [os_path_join_data, List.length_append, List.length_cons] at this
  omega

/-- The CSV path always differs from its own day directory. -/
theorem csvPath_ne_subdirPath (t1 t2 : DateTime) (s : String)
    (h1 : t1.Valid) (h2 : t2.Valid) : csvPath t1 s ≠ subdirPath t2 := by
  intro h
  have hlen := congrArg (fun x => x.data.length) h
  simp only [csvPath, subdirPath, os_path_join_data, String.data_append,
    List.length_append, List.length_cons] at hlen
  rw [strftime_ymd_length t1 h1, strftime_ymd_length t2 h2] at hlen
  omega

/-- The CSV path always differs from the output root. -/
theorem csvPath_ne_output (t : DateTime) (s : String) : csvPath t s ≠ OUTPUT_DIR := by
  intro h
  have hlen := congrArg (fun x => x.data.length) h
  simp only [csvPath, subdirPath, os_path_join_data,
    List.length_append, List.length_cons] at hlen
  omega

/-- Distinct calendar dates give distinct day directories. -/
theorem subdirPath_inj (t1 t2 : DateTime) (h1 : t1.Valid) (h2 : t2.Valid)
    (hne : t1.date ≠ t2.date) : subdirPath t1 ≠ subdirPath t2 := by
  intro h
  apply hne
  apply strftime_ymd_inj t1 t2 h1 h2
  have hdata := congrArg String.data h
  simp only [subdirPath, os_path_join_data] at hdata
  have := List.append_cancel_left hdata
  injection this with _ hx
  exact String.ext hx

/-- Distinct calendar dates give distinct CSV paths for the same site. -/
theorem csvPath_inj (t1 t2 : DateTime) (s : String) (h1 : t1.Valid) (h2 : t2.Valid)
    (hne : t1.date ≠ t2.date) : csvPath t1 s ≠ csvPath t2 s := by
  intro h
  have hdata := congrArg String.data h
  simp only [csvPath, subdirPath, os_path_join_data] at hdata
  have hlen : (OUTPUT_DIR.data ++ '/' :: (strftime_ymd t1).data).length =
      (OUTPUT_DIR.data ++ '/' :: (strftime_ymd t2).data).length := by
    simp only [List.length_append, List.length_cons]
    rw [strftime_ymd_length t1 h1, strftime_ymd_length t2 h2]
  obtain ⟨hleft, _⟩ := List.append_inj hdata hlen
  have := List.append_cancel_left hleft
  injection this with _ hx
  exact absurd (strftime_ymd_inj t1 t2 h1 h2 (String.ext hx)) hne

/-- Membership gives a true `contains` test. -/
theorem contains_of_mem {l : List String} {a : String} (h : a ∈ l) :
    l.contains a = true := List.elem_iff.2 h

/-- Non-membership gives a false `contains` test. -/
theorem contains_eq_false {l : List String} {a : String} (h : a ∉ l) :
    l.contains a = false := by
  cases hcc : l.contains a with
  | false => rfl
  | true => exact absurd (List.elem_iff.1 hcc) h

/-- An existing directory makes `os.path.exists` true. -/
theorem os_path_exists_of_dir (fs : FileSystem) (p : String) (h : p ∈ fs.dirs) :
    os_path_exists fs p = true := by
  simp [os_path_exists]
  exact Or.inl h

/-- An existing file makes `os.path.exists` true. -/
theorem os_path_exists_of_file (fs : FileSystem) (p : String)
    (v : List (List String)) (h : fs.files p = some v) :
    os_path_exists fs p = true := by
  simp [os_path_exists, h]

/-- A path that is neither a directory nor a file does not exist. -/
theorem os_path_exists_eq_false (fs : FileSystem) (p : String)
    (hd : p ∉ fs.dirs) (hf : fs.files p = none) : os_path_exists fs p = false := by
  simp [os_path_exists, hf]
  exact hd

/-- Reduction of the negated existence test used by `write_csv`, true case. -/
theorem ite_not_true {α : Type} (b : Bool) (x y : α) (h : b = true) :
    (if !b then x else y) = y := by subst h; rfl

/-- Reduction of the negated existence test used by `write_csv`, false case. -/
theorem ite_not_false {α : Type} (b : Bool) (x y : α) (h : b = false) :
    (if !b then x else y) = x := by subst h; rfl

/-- Reduction of a successful monadic step. -/
theorem except_pure_bind {α β : Type} (a : α) (f : α → Except String β) :
    (pure a : Except String α) >>= f = f a := rfl

/-- Reduction of a successful monadic step, `ok` form. -/
theorem except_ok_bind {α β : Type} (a : α) (f : α → Except String β) :
    (Except.ok a : Except String α) >>= f = f a := rfl

/-- Reduction of a failing monadic step. -/
theorem except_error_bind {α β : Type} (e : String) (f : α → Except String β) :
    (Except.error e : Except String α) >>= f = Except.error e := rfl

/-- Successful `os.mkdir`: the path is new and the parent directory exists. -/
theorem os_mkdir_ok (fs : FileSystem) (p : String)
    (hne : os_path_exists fs p = false) (hpar : dirname p ∈ fs.dirs) :
    os_mkdir fs p = .ok { fs with dirs := p :: fs.dirs } := by
  simp [os_mkdir, hne]
  exact hpar

/-- Failing `os.mkdir`: the parent directory is missing. -/
theorem os_mkdir_err (fs : FileSystem) (p : String)
    (hne : os_path_exists fs p = false) (hpar : dirname p ∉ fs.dirs) :
    os_mkdir fs p = .error "FileNotFoundError" := by
  simp [os_mkdir, hne]
  exact hpar

/-- Successful truncating write. -/
theorem file_write_single_row_ok (fs : FileSystem) (path : String) (row : List String)
    (hpar : dirname path ∈ fs.dirs) :
    file_write_single_row fs path row =
      .ok { fs with files := fun q => if q = path then some [row] else fs.files q } := by
  simp [file_write_single_row]
  exact hpar

/-- Successful append. -/
theorem file_append_row_ok (fs : FileSystem) (path : String) (row : List String)
    (hpar : dirname path ∈ fs.dirs) :
    file_append_row fs path row =
      .ok { fs with files := fun q =>
              if q = path then some (((fs.files path).getD []) ++ [row])
              else fs.files q } := by
  simp [file_append_row]
  exact hpar

/-- Unfolded shape of `write_csv` in terms of the path abbreviations. -/
theorem write_csv_def (fs : FileSystem) (now : DateTime) (p : JsonPacket) :
    write_csv fs now p =
      (if !os_path_exists fs (subdirPath now) then os_mkdir fs (subdirPath now)
       else pure fs) >>= fun fs1 =>
      (if !os_path_exists fs1 (csvPath now p.site_name) then
         init_csv_file fs1 (csvPath now p.site_name)
       else pure fs1) >>= fun fs2 =>
      file_append_row fs2 (csvPath now p.site_name) (mkRow now p) := by
  rfl

/-- Master lemma: when the output root exists, the day-directory path is not
shadowed by a file, and the site name is separator-free, `write_csv`
succeeds; the target CSV ends up holding its previous rows (or the fresh
header when absent) plus exactly the one new data row; every other file is
untouched; the directory set gains at most the day directory. -/
theorem write_csv_ok (fs : FileSystem) (now : DateTime) (p : JsonPacket)
    (hOut : OUTPUT_DIR ∈ fs.dirs)
    (hSubFile : fs.files (subdirPath now) = none)
    (hCsvDir : csvPath now p.site_name ∉ fs.dirs)
    (hSite : '/' ∉ p.site_name.data) :
    ∃ fs1,
      write_csv fs now p = .ok fs1 ∧
      fs1.files (csvPath now p.site_name) =
        some ((match fs.files (csvPath now p.site_name) with
               | none => [CSV_HEADERS]
               | some rows => rows) ++ [mkRow now p]) ∧
      (∀ q, q ≠ csvPath now p.site_name → fs1.files q = fs.files q) ∧
      fs1.dirs = (if subdirPath now ∈ fs.dirs then fs.dirs
                  else subdirPath now :: fs.dirs) := by
  have hdname_sub : dirname (subdirPath now) = OUTPUT_DIR :=
    dirname_join _ _ (slash_not_mem_ymd now)
  have hsite_csv : '/' ∉ (p.site_name ++ ".csv").data := by
    rw [String.data_append]
    intro hmem
    rcases List.mem_append.1 hmem with hl | hr
    · exact hSite hl
    · exact absurd hr (by decide)
  have hdname_csv : dirname (csvPath now p.site_name) = subdirPath now :=
    dirname_join _ _ hsite_csv
  have hcsv_ne_sub : csvPath now p.site_name ≠ subdirPath now :=
    os_path_join_ne_left (subdirPath now) (p.site_name ++ ".csv")
  by_cases hdir : subdirPath now ∈ fs.dirs
  · have hex1 : os_path_exists fs (subdirPath now) = true := os_path_exists_of_dir fs _ hdir
    cases hfs : fs.files (csvPath now p.site_name) with
    | none =>
      have hex2 : os_path_exists fs (csvPath now p.site_name) = false :=
        os_path_exists_eq_false fs _ hCsvDir hfs
      apply Exists.intro
      refine ⟨?_, ?_, ?_, ?_⟩
      · rw [write_csv_def, ite_not_true _ _ _ hex1]
        simp only [except_pure_bind]
        rw [ite_not_false _ _ _ hex2]
        simp only [init_csv_file]
        rw [file_write_single_row_ok fs _ CSV_HEADERS (by rw [hdname_csv]; exact hdir)]
        simp only [except_ok_bind]
        rw [file_append_row_ok _ _ _ (by rw [hdname_csv]; exact hdir)]
      · simp [hfs]
      · intro q hq
        simp [hq]
      · simp [hdir]
    | some rows =>
      have hex2 : os_path_exists fs (csvPath now p.site_name) = true :=
        os_path_exists_of_file fs _ rows hfs
      apply Exists.intro
      refine ⟨?_, ?_, ?_, ?_⟩
      · rw [write_csv_def, ite_not_true _ _ _ hex1]
        simp only [except_pure_bind]
        rw [ite_not_true _ _ _ hex2]
        simp only [except_pure_bind]
        rw [file_append_row_ok _ _ _ (by rw [hdname_csv]; exact hdir)]
      · simp [hfs]
      · intro q hq
        simp [hq]
      · simp [hdir]
  · have hex1 : os_path_exists fs (subdirPath now) = false :=
      os_path_exists_eq_false fs _ hdir hSubFile
    have hmk := os_mkdir_ok fs (subdirPath now) hex1 (by rw [hdname_sub]; exact hOut)
    have hCsvDir1 : csvPath now p.site_name ∉ (subdirPath now :: fs.dirs) := by
      intro hmem
      rcases List.mem_cons.1 hmem with h1 | h2
      · exact hcsv_ne_sub h1
      · exact hCsvDir h2
    cases hfs : fs.files (csvPath now p.site_name) with
    | none =>
      have hex2 : os_path_exists { fs with dirs := subdirPath now :: fs.dirs }
          (csvPath now p.site_name) = false :=
        os_path_exists_eq_false _ _ hCsvDir1 hfs
      apply Exists.intro
      refine ⟨?_, ?_, ?_, ?_⟩
      · rw [write_csv_def, ite_not_false _ _ _ hex1, hmk]
        simp only [except_ok_bind]
        rw [ite_not_false _ _ _ hex2]
        simp only [init_csv_file]
        rw [file_write_single_row_ok _ _ CSV_HEADERS
              (by rw [hdname_csv]; exact List.mem_cons_self _ _)]
        simp only [except_ok_bind]
        rw [file_append_row_ok _ _ _
              (by rw [hdname_csv]; exact List.mem_cons_self _ _)]
      · simp [hfs]
      · intro q hq
        simp [hq]
      · simp [hdir]
    | some rows =>
      have hex2 : os_path_exists { fs with dirs := subdirPath now :: fs.dirs }
          (csvPath now p.site_name) = true :=
        os_path_exists_of_file _ _ rows hfs
      apply Exists.intro
      refine ⟨?_, ?_, ?_, ?_⟩
      · rw [write_csv_def, ite_not_false _ _ _ hex1, hmk]
        simp only [except_ok_bind]
        rw [ite_not_true _ _ _ hex2]
        simp only [except_pure_bind]
        rw [file_append_row_ok _ _ _
              (by rw [hdname_csv]; exact List.mem_cons_self _ _)]
      · simp [hfs]
      · intro q hq
        simp [hq]
      · simp [hdir]

/-- The daily directory name depends only on the calendar date. -/
theorem strftime_ymd_congr (t1 t2 : DateTime) (h : t1.date = t2.date) :
    strftime_ymd t1 = strftime_ymd t2 := by
  simp only [DateTime.date, Prod.mk.injEq] at h
  simp [strftime_ymd, h.1, h.2.1, h.2.2]

/-- A data row written by `write_csv` is never the header row: its first
cell starts with a decimal digit while the header starts with 'T'. -/
theorem mkRow_ne_headers (t : DateTime) (p : JsonPacket) : mkRow t p ≠ CSV_HEADERS := by
  intro h
  have h0 : strftime_full t = "Timestamp" := by
    have hh := congrArg (fun l => List.head? l) h
    simpa [mkRow, CSV_HEADERS] using hh
  have hdata := congrArg String.data h0
  rw [strftime_full_data] at hdata
  cases hp : (padZeros 4 t.year).data with
  | nil => exact padZeros_ne_nil 4 t.year hp
  | cons c cs =>
    rw [hp] at hdata
    have hhead := congrArg List.head? hdata
    have hT : (("Timestamp" : String).data).head? = some 'T' := rfl
    rw [hT] at hhead
    simp only [List.cons_append, List.head?_cons] at hhead
    have hc : c = 'T' := by injection hhead
    have hdig := padZeros_digit 4 t.year c (by rw [hp]; simp)
    rw [hc] at hdig
    exact absurd hdig (by decide)

/-- Counting zeros plus counting ones equals counting entries that are zero
or one. -/
theorem count_zero_add_count_one (l : List Int) :
    l.count 0 + l.count 1 = l.countP (fun x => x == 0 || x == 1) := by
  induction l with
  | nil => rfl
  | cons a l ih =>
    simp only [List.count_cons, List.countP_cons]
    by_cases h0 : a = 0
    · subst h0; simp; omega
    · by_cases h1 : a = 1
      · subst h1; simp; omega
      · simp [h0, h1]; omega

/-- C1: for every packet whose velocity sequence has length N and whose
ground-scatter flags hold exactly k ones and N-k zeros, the row written by
the Record Writer carries total_echo_count = N, ionospheric_echo_count = N-k
and ground_scatter_echo_count = k (in the source column order
timestamp, beam, total, ionospheric, ground-scatter). -/
theorem C1_echo_counts_row (fs : FileSystem) (now : DateTime) (p : JsonPacket) (N k : Nat)
    (hN : p.velocity.length = N)
    (hk : p.g_scatter.count 1 = k)
    (hz : p.g_scatter.count 0 = N - k)
    (hOut : OUTPUT_DIR ∈ fs.dirs)
    (hSubFile : fs.files (subdirPath now) = none)
    (hCsvDir : csvPath now p.site_name ∉ fs.dirs)
    (hSite : '/' ∉ p.site_name.data) :
    ∃ fs1 prevRows,
      write_csv fs now p = .ok fs1 ∧
      fs1.files (csvPath now p.site_name) =
        some (prevRows ++
          [[strftime_full now, toString p.beam, toString N, toString (N - k), toString k]]) := by
  obtain ⟨fs1, hrun, hfile, _, _⟩ := write_csv_ok fs now p hOut hSubFile hCsvDir hSite
  refine ⟨fs1,
    (match fs.files (csvPath now p.site_name) with
     | none => [CSV_HEADERS]
     | some rows => rows), hrun, ?_⟩
  rw [hfile]
  simp [mkRow, get_num_echoes, hN, hk, hz]

/-- Witness for C1 at the specification scenario: site "sas", beam 7, ten
velocity samples, flags [1,1,0,0,1,0,0,1,0,0], so N = 10, k = 4, N-k = 6. -/
theorem C1_echo_counts_row_witness :
    ∃ fs1 prevRows,
      write_csv sample_fs sample_now sample_packet = .ok fs1 ∧
      fs1.files (csvPath sample_now "sas") =
        some (prevRows ++
          [[strftime_full sample_now, toString (7 : Int), toString (10 : Nat),
            toString (6 : Nat), toString (4 : Nat)]]) :=
  C1_echo_counts_row sample_fs sample_now sample_packet 10 4
    (by decide) (by decide) (by decide) (by decide) rfl (by decide) (by decide)

/-- C3: a ground-scatter flag entry that is neither 0 nor 1 is counted in
neither derived counter (removing it changes no counter), and the packet is
still written, not rejected. -/
theorem C3_non_binary_flag (p : JsonPacket) (v : Int) (xs ys : List Int)
    (hflags : p.g_scatter = xs ++ v :: ys) (h0 : v ≠ 0) (h1 : v ≠ 1) :
    get_num_echoes p = get_num_echoes { p with g_scatter := xs ++ ys } ∧
    (∀ fs now, OUTPUT_DIR ∈ fs.dirs → fs.files (subdirPath now) = none →
      csvPath now p.site_name ∉ fs.dirs → '/' ∉ p.site_name.data →
      ∃ fs1, write_csv fs now p = .ok fs1) := by
  constructor
  · simp [get_num_echoes, hflags, List.count_append, List.count_cons, h0, h1]
  · intro fs now hOut hSub hCsv hSite
    obtain ⟨fs1, hrun, _, _, _⟩ := write_csv_ok fs now p hOut hSub hCsv hSite
    exact ⟨fs1, hrun⟩

/-- Witness for C3: flags [1, 2, 0] with the entry 2 neither 0 nor 1. -/
theorem C3_non_binary_flag_witness :
    get_num_echoes sample_packet_bad =
      get_num_echoes { sample_packet_bad with g_scatter := [1, 0] } ∧
    (∀ fs now, OUTPUT_DIR ∈ fs.dirs → fs.files (subdirPath now) = none →
      csvPath now sample_packet_bad.site_name ∉ fs.dirs →
      '/' ∉ sample_packet_bad.site_name.data →
      ∃ fs1, write_csv fs now sample_packet_bad = .ok fs1) :=
  C3_non_binary_flag sample_packet_bad 2 [1] [0] rfl (by decide) (by decide)

/-- C10: the two flag-derived counters sum to the number of flag entries
equal to 0 or 1, depend only on the flag list, and the total count depends
only on the velocity length — even when the two lists have different
lengths. -/
theorem C10_counter_structure (p : JsonPacket) :
    (get_num_echoes p).2.1 + (get_num_echoes p).2.2 =
      p.g_scatter.countP (fun x => x == 0 || x == 1) ∧
    (∀ q : JsonPacket, q.g_scatter = p.g_scatter →
      (get_num_echoes q).2.1 = (get_num_echoes p).2.1 ∧
      (get_num_echoes q).2.2 = (get_num_echoes p).2.2) ∧
    (∀ q : JsonPacket, q.velocity.length = p.velocity.length →
      (get_num_echoes q).1 = (get_num_echoes p).1) := by
  refine ⟨?_, ?_, ?_⟩
  · simpa [get_num_echoes] using count_zero_add_count_one p.g_scatter
  · intro q hq
    simp [get_num_echoes, hq]
  · intro q hq
    simp [get_num_echoes, hq]

/-- Witness for C10 on a packet with a non-binary flag and mismatched list
lengths, compared against packets agreeing only in flags or only in
velocity length. -/
theorem C10_counter_structure_witness :
    ((get_num_echoes sample_packet_bad).2.1 + (get_num_echoes sample_packet_bad).2.2 =
      sample_packet_bad.g_scatter.countP (fun x => x == 0 || x == 1)) ∧
    ((get_num_echoes sample_packet_alt).2.1 = (get_num_echoes sample_packet_bad).2.1 ∧
      (get_num_echoes sample_packet_alt).2.2 = (get_num_echoes sample_packet_bad).2.2) ∧
    (get_num_echoes sample_packet_len3).1 = (get_num_echoes sample_packet_bad).1 :=
  ⟨(C10_counter_structure sample_packet_bad).1,
   (C10_counter_structure sample_packet_bad).2.1 sample_packet_alt (by decide),
   (C10_counter_structure sample_packet_bad).2.2 sample_packet_len3 (by decide)⟩

/-- C6: an append call keeps every previously written row of the target file
unchanged and in place, adds exactly one data row at the end, and leaves
every other file untouched. -/
theorem C6_append_only (fs : FileSystem) (now : DateTime) (p : JsonPacket)
    (rows : List (List String))
    (hfs : fs.files (csvPath now p.site_name) = some rows)
    (hOut : OUTPUT_DIR ∈ fs.dirs)
    (hSubFile : fs.files (subdirPath now) = none)
    (hCsvDir : csvPath now p.site_name ∉ fs.dirs)
    (hSite : '/' ∉ p.site_name.data) :
    ∃ fs1,
      write_csv fs now p = .ok fs1 ∧
      fs1.files (csvPath now p.site_name) = some (rows ++ [mkRow now p]) ∧
      ∀ q, q ≠ csvPath now p.site_name → fs1.files q = fs.files q := by
  obtain ⟨fs1, hrun, hfile, hframe, _⟩ := write_csv_ok fs now p hOut hSubFile hCsvDir hSite
  refine ⟨fs1, hrun, ?_, hframe⟩
  rw [hfs] at hfile
  simpa using hfile

/-- Witness for C6 on a filesystem whose CSV already holds a header and one
data row. -/
theorem C6_append_only_witness :
    ∃ fs1,
      write_csv sample_fs2 sample_now sample_packet = .ok fs1 ∧
      fs1.files (csvPath sample_now "sas") =
        some ([CSV_HEADERS, ["2024-06-01-10:00:00.000000", "3", "2", "1", "1"]] ++
          [mkRow sample_now sample_packet]) ∧
      ∀ q, q ≠ csvPath sample_now "sas" → fs1.files q = sample_fs2.files q :=
  C6_append_only sample_fs2 sample_now sample_packet
    [CSV_HEADERS, ["2024-06-01-10:00:00.000000", "3", "2", "1", "1"]]
    (by decide) (by decide) (by decide) (by decide) (by decide)

/-- Invariant step for repeated appends on one day and site: once the CSV
holds the header followed by data rows, further calls only extend the data
rows, one row per call, and never write the header again. -/
theorem write_calls_extend (d : DateTime) (site : String) :
    ∀ (calls : List (DateTime × JsonPacket)) (fs : FileSystem) (rs : List (List String)),
      (∀ c ∈ calls, (c : DateTime × JsonPacket).1.date = d.date) →
      (∀ c ∈ calls, (c : DateTime × JsonPacket).2.site_name = site) →
      OUTPUT_DIR ∈ fs.dirs →
      fs.files (subdirPath d) = none →
      csvPath d site ∉ fs.dirs →
      '/' ∉ site.data →
      fs.files (csvPath d site) = some (CSV_HEADERS :: rs) →
      ∃ fs1 newRows,
        write_calls fs calls = .ok fs1 ∧
        fs1.files (csvPath d site) = some (CSV_HEADERS :: (rs ++ newRows)) ∧
        newRows.length = calls.length ∧
        (∀ r ∈ newRows, r ≠ CSV_HEADERS) := by
  intro calls
  induction calls with
  | nil =>
    intro fs rs _ _ _ _ _ _ hfile
    exact ⟨fs, [], rfl, by simpa using hfile, rfl, by simp⟩
  | cons c rest ih =>
    intro fs rs hdate hsite hOut hSub hCsvDir hSiteStr hfile
    have hd : c.1.date = d.date := hdate c (by simp)
    have hs : c.2.site_name = site := hsite c (by simp)
    have hsubeq : subdirPath c.1 = subdirPath d := by
      simp [subdirPath, strftime_ymd_congr c.1 d hd]
    have hcsveq : csvPath c.1 c.2.site_name = csvPath d site := by
      simp [csvPath, hsubeq, hs]
    obtain ⟨fsA, hrun, hfileA, hframeA, hdirsA⟩ :=
      write_csv_ok fs c.1 c.2 hOut (by rw [hsubeq]; exact hSub)
        (by rw [hcsveq]; exact hCsvDir) (by rw [hs]; exact hSiteStr)
    rw [hcsveq] at hfileA hframeA
    rw [hsubeq] at hdirsA
    rw [hfile] at hfileA
    simp only [List.cons_append] at hfileA
    have hOutA : OUTPUT_DIR ∈ fsA.dirs := by
      rw [hdirsA]
      split
      · exact hOut
      · exact List.mem_cons_of_mem _ hOut
    have hne_sub_csv : subdirPath d ≠ csvPath d site :=
      Ne.symm (os_path_join_ne_left (subdirPath d) (site ++ ".csv"))
    have hSubA : fsA.files (subdirPath d) = none := by
      rw [hframeA (subdirPath d) hne_sub_csv]
      exact hSub
    have hCsvDirA : csvPath d site ∉ fsA.dirs := by
      rw [hdirsA]
      split
      · exact hCsvDir
      · intro hmem
        rcases List.mem_cons.1 hmem with h1 | h2
        · exact os_path_join_ne_left (subdirPath d) (site ++ ".csv") h1
        · exact hCsvDir h2
    obtain ⟨fs1, newRows, hrun2, hfile2, hlen2, hnh2⟩ :=
      ih fsA (rs ++ [mkRow c.1 c.2])
        (fun x hx => hdate x (by simp [hx]))
        (fun x hx => hsite x (by simp [hx]))
        hOutA hSubA hCsvDirA hSiteStr hfileA
    refine ⟨fs1, mkRow c.1 c.2 :: newRows, ?_, ?_, ?_, ?_⟩
    · show write_calls fs (c :: rest) = .ok fs1
      simp only [write_calls, hrun]
      exact hrun2
    · rw [hfile2]
      simp
    · simp [hlen2]
    · intro r hr
      rcases List.mem_cons.1 hr with h1 | h2
      · rw [h1]
        exact mkRow_ne_headers c.1 c.2
      · exact hnh2 r h2

/-- C4: file initialization is idempotent — across any sequence of two or
more append calls sharing one calendar date and site, the header row is
written exactly once, by the first call, and every later call only appends a
data row. -/
theorem C4_header_idempotent (fs : FileSystem) (d : DateTime) (site : String)
    (calls : List (DateTime × JsonPacket))
    (hlen : 2 ≤ calls.length)
    (hdate : ∀ c ∈ calls, (c : DateTime × JsonPacket).1.date = d.date)
    (hsite : ∀ c ∈ calls, (c : DateTime × JsonPacket).2.site_name = site)
    (hOut : OUTPUT_DIR ∈ fs.dirs)
    (hSub : fs.files (subdirPath d) = none)
    (hCsvNone : fs.files (csvPath d site) = none)
    (hCsvDir : csvPath d site ∉ fs.dirs)
    (hSiteStr : '/' ∉ site.data) :
    ∃ fs1 dataRows,
      write_calls fs calls = .ok fs1 ∧
      fs1.files (csvPath d site) = some (CSV_HEADERS :: dataRows) ∧
      dataRows.length = calls.length ∧
      ∀ r ∈ dataRows, r ≠ CSV_HEADERS := by
  cases calls with
  | nil => simp at hlen
  | cons c rest =>
    have hd : c.1.date = d.date := hdate c (by simp)
    have hs : c.2.site_name = site := hsite c (by simp)
    have hsubeq : subdirPath c.1 = subdirPath d := by
      simp [subdirPath, strftime_ymd_congr c.1 d hd]
    have hcsveq : csvPath c.1 c.2.site_name = csvPath d site := by
      simp [csvPath, hsubeq, hs]
    obtain ⟨fsA, hrun, hfileA, hframeA, hdirsA⟩ :=
      write_csv_ok fs c.1 c.2 hOut (by rw [hsubeq]; exact hSub)
        (by rw [hcsveq]; exact hCsvDir) (by rw [hs]; exact hSiteStr)
    rw [hcsveq] at hfileA hframeA
    rw [hsubeq] at hdirsA
    rw [hCsvNone] at hfileA
    simp only [List.singleton_append] at hfileA
    have hOutA : OUTPUT_DIR ∈ fsA.dirs := by
      rw [hdirsA]
      split
      · exact hOut
      · exact List.mem_cons_of_mem _ hOut
    have hne_sub_csv : subdirPath d ≠ csvPath d site :=
      Ne.symm (os_path_join_ne_left (subdirPath d) (site ++ ".csv"))
    have hSubA : fsA.files (subdirPath d) = none := by
      rw [hframeA (subdirPath d) hne_sub_csv]
      exact hSub
    have hCsvDirA : csvPath d site ∉ fsA.dirs := by
      rw [hdirsA]
      split
      · exact hCsvDir
      · intro hmem
        rcases List.mem_cons.1 hmem with h1 | h2
        · exact os_path_join_ne_left (subdirPath d) (site ++ ".csv") h1
        · exact hCsvDir h2
    have hfileA' : fsA.files (csvPath d site) = some (CSV_HEADERS :: [mkRow c.1 c.2]) := by
      simpa using hfileA
    obtain ⟨fs1, newRows, hrun2, hfile2, hlen2, hnh2⟩ :=
      write_calls_extend d site rest fsA [mkRow c.1 c.2]
        (fun x hx => hdate x (by simp [hx]))
        (fun x hx => hsite x (by simp [hx]))
        hOutA hSubA hCsvDirA hSiteStr hfileA'
    refine ⟨fs1, mkRow c.1 c.2 :: newRows, ?_, ?_, ?_, ?_⟩
    · show write_calls fs (c :: rest) = .ok fs1
      simp only [write_calls, hrun]
      exact hrun2
    · rw [hfile2]
      simp
    · simp [hlen2]
    · intro r hr
      rcases List.mem_cons.1 hr with h1 | h2
      · rw [h1]
        exact mkRow_ne_headers c.1 c.2
      · exact hnh2 r h2

/-- Witness for C4: two calls on the same day for site "sas" leave the file
with one header and two data rows. -/
theorem C4_header_idempotent_witness :
    ∃ fs1 dataRows,
      write_calls sample_fs [(sample_now, sample_packet), (sample_now_b, sample_packet)] =
        .ok fs1 ∧
      fs1.files (csvPath sample_now "sas") = some (CSV_HEADERS :: dataRows) ∧
      dataRows.length =
        ([(sample_now, sample_packet), (sample_now_b, sample_packet)] :
          List (DateTime × JsonPacket)).length ∧
      ∀ r ∈ dataRows, r ≠ CSV_HEADERS :=
  C4_header_idempotent sample_fs sample_now "sas"
    [(sample_now, sample_packet), (sample_now_b, sample_packet)]
    (by decide) (by decide) (by decide) (by decide) rfl rfl (by decide) (by decide)

/-- C5: two append calls for the same site with timestamps on different
calendar dates write to two distinct files, each holding its own header and
only its own row. -/
theorem C5_rollover (fs : FileSystem) (now1 now2 : DateTime) (p1 p2 : JsonPacket)
    (site : String)
    (hv1 : now1.Valid) (hv2 : now2.Valid) (hdates : now1.date ≠ now2.date)
    (hs1 : p1.site_name = site) (hs2 : p2.site_name = site)
    (hOut : OUTPUT_DIR ∈ fs.dirs)
    (hSub1 : fs.files (subdirPath now1) = none)
    (hSub2 : fs.files (subdirPath now2) = none)
    (hCsv1None : fs.files (csvPath now1 site) = none)
    (hCsv2None : fs.files (csvPath now2 site) = none)
    (hCsv1Dir : csvPath now1 site ∉ fs.dirs)
    (hCsv2Dir : csvPath now2 site ∉ fs.dirs)
    (hSite : '/' ∉ site.data) :
    ∃ fs1 fs2,
      write_csv fs now1 p1 = .ok fs1 ∧
      write_csv fs1 now2 p2 = .ok fs2 ∧
      csvPath now1 site ≠ csvPath now2 site ∧
      fs2.files (csvPath now1 site) = some [CSV_HEADERS, mkRow now1 p1] ∧
      fs2.files (csvPath now2 site) = some [CSV_HEADERS, mkRow now2 p2] := by
  have hpathne : csvPath now1 site ≠ csvPath now2 site :=
    csvPath_inj now1 now2 site hv1 hv2 hdates
  obtain ⟨fs1, hrun1, hfile1, hframe1, hdirs1⟩ :=
    write_csv_ok fs now1 p1 hOut hSub1 (by rw [hs1]; exact hCsv1Dir) (by rw [hs1]; exact hSite)
  rw [hs1] at hfile1 hframe1
  rw [hCsv1None] at hfile1
  simp only [List.singleton_append] at hfile1
  have hOut1 : OUTPUT_DIR ∈ fs1.dirs := by
    rw [hdirs1]
    split
    · exact hOut
    · exact List.mem_cons_of_mem _ hOut
  have hSub2' : fs1.files (subdirPath now2) = none := by
    rw [hframe1 (subdirPath now2)
          (Ne.symm (csvPath_ne_subdirPath now1 now2 site hv1 hv2))]
    exact hSub2
  have hCsv2None' : fs1.files (csvPath now2 site) = none := by
    rw [hframe1 (csvPath now2 site) (Ne.symm hpathne)]
    exact hCsv2None
  have hCsv2Dir' : csvPath now2 site ∉ fs1.dirs := by
    rw [hdirs1]
    split
    · exact hCsv2Dir
    · intro hmem
      rcases List.mem_cons.1 hmem with h1 | h2
      · exact csvPath_ne_subdirPath now2 now1 site hv2 hv1 h1
      · exact hCsv2Dir h2
  obtain ⟨fs2, hrun2, hfile2, hframe2, _⟩ :=
    write_csv_ok fs1 now2 p2 hOut1 hSub2' (by rw [hs2]; exact hCsv2Dir')
      (by rw [hs2]; exact hSite)
  rw [hs2] at hfile2 hframe2
  rw [hCsv2None'] at hfile2
  simp only [List.singleton_append] at hfile2
  refine ⟨fs1, fs2, hrun1, hrun2, hpathne, ?_, ?_⟩
  · rw [hframe2 (csvPath now1 site) hpathne]
    simpa using hfile1
  · simpa using hfile2

/-- Witness for C5: writes on 2024-06-01 and 2024-06-02 for site "sas" from
an empty output root. -/
theorem C5_rollover_witness :
    ∃ fs1 fs2,
      write_csv sample_fs sample_now sample_packet = .ok fs1 ∧
      write_csv fs1 sample_now2 sample_packet = .ok fs2 ∧
      csvPath sample_now "sas" ≠ csvPath sample_now2 "sas" ∧
      fs2.files (csvPath sample_now "sas") =
        some [CSV_HEADERS, mkRow sample_now sample_packet] ∧
      fs2.files (csvPath sample_now2 "sas") =
        some [CSV_HEADERS, mkRow sample_now2 sample_packet] :=
  C5_rollover sample_fs sample_now sample_now2 sample_packet sample_packet "sas"
    (by decide) (by decide) (by decide) rfl rfl (by decide) rfl rfl rfl rfl
    (by decide) (by decide) (by decide)

/-- C8: an append call for a day whose directory is missing creates that
directory (non-recursively) before creating the file; if even the output
root is missing, the call fails with the file-IO error instead. -/
theorem C8_mkdir_non_recursive (now : DateTime) (p : JsonPacket) :
    (∀ fs : FileSystem, OUTPUT_DIR ∈ fs.dirs →
      subdirPath now ∉ fs.dirs → fs.files (subdirPath now) = none →
      fs.files (csvPath now p.site_name) = none →
      csvPath now p.site_name ∉ fs.dirs →
      '/' ∉ p.site_name.data →
      ∃ fs1, write_csv fs now p = .ok fs1 ∧ subdirPath now ∈ fs1.dirs ∧
        fs1.files (csvPath now p.site_name) = some [CSV_HEADERS, mkRow now p]) ∧
    (∀ fs : FileSystem, OUTPUT_DIR ∉ fs.dirs →
      subdirPath now ∉ fs.dirs → fs.files (subdirPath now) = none →
      write_csv fs now p = .error "FileNotFoundError") := by
  constructor
  · intro fs hOut hSubDir hSubFile hCsvNone hCsvDir hSite
    obtain ⟨fs1, hrun, hfile, _, hdirs⟩ := write_csv_ok fs now p hOut hSubFile hCsvDir hSite
    refine ⟨fs1, hrun, ?_, ?_⟩
    · rw [hdirs, if_neg hSubDir]
      exact List.mem_cons_self _ _
    · rw [hfile, hCsvNone]
      simp
  · intro fs hOut hSubDir hSubFile
    have hex1 : os_path_exists fs (subdirPath now) = false :=
      os_path_exists_eq_false fs _ hSubDir hSubFile
    have hdn : dirname (subdirPath now) = OUTPUT_DIR :=
      dirname_join _ _ (slash_not_mem_ymd now)
    have hpar : dirname (subdirPath now) ∉ fs.dirs := by
      rw [hdn]
      exact hOut
    rw [write_csv_def, ite_not_false _ _ _ hex1, os_mkdir_err fs _ hex1 hpar]
    rfl

/-- Witness for C8: success with a fresh day directory under an existing
root, and failure when the output root itself is missing. -/
theorem C8_mkdir_non_recursive_witness :
    (∃ fs1, write_csv sample_fs sample_now sample_packet = .ok fs1 ∧
      subdirPath sample_now ∈ fs1.dirs ∧
      fs1.files (csvPath sample_now "sas") =
        some [CSV_HEADERS, mkRow sample_now sample_packet]) ∧
    write_csv fs_empty sample_now sample_packet = .error "FileNotFoundError" :=
  ⟨(C8_mkdir_non_recursive sample_now sample_packet).1 sample_fs
      (by decide) (by decide) rfl rfl (by decide) (by decide),
   (C8_mkdir_non_recursive sample_now sample_packet).2 fs_empty
      (by decide) (by decide) rfl⟩

/-- C9: the timestamp written in the row is the wall-clock time passed to
the writer, formatted `YYYY-MM-DD-HH:MM:SS.ffffff` with zero-padded decimal
fields of widths 4/2/2/2/2/2 and a six-digit fractional second, and its
value does not depend on any field of the packet. -/
theorem C9_timestamp_format (fs : FileSystem) (now : DateTime) (p : JsonPacket)
    (hv : now.Valid)
    (hOut : OUTPUT_DIR ∈ fs.dirs)
    (hSubFile : fs.files (subdirPath now) = none)
    (hCsvDir : csvPath now p.site_name ∉ fs.dirs)
    (hSite : '/' ∉ p.site_name.data) :
    ∃ fs1 prevRows,
      write_csv fs now p = .ok fs1 ∧
      fs1.files (csvPath now p.site_name) = some (prevRows ++ [mkRow now p]) ∧
      (mkRow now p).head? = some (strftime_full now) ∧
      (∀ q : JsonPacket, (mkRow now q).head? = some (strftime_full now)) ∧
      ∃ a b c d e f g : List Char,
        (strftime_full now).data =
          a ++ '-' :: (b ++ '-' :: (c ++ '-' :: (d ++ ':' :: (e ++ ':' :: (f ++ '.' :: g))))) ∧
        a.length = 4 ∧ b.length = 2 ∧ c.length = 2 ∧ d.length = 2 ∧ e.length = 2 ∧
        f.length = 2 ∧ g.length = 6 ∧
        (∀ ch : Char,
          (ch ∈ a ∨ ch ∈ b ∨ ch ∈ c ∨ ch ∈ d ∨ ch ∈ e ∨ ch ∈ f ∨ ch ∈ g) →
          48 ≤ ch.toNat ∧ ch.toNat ≤ 57) ∧
        digitsVal a = now.year ∧ digitsVal b = now.month ∧ digitsVal c = now.day ∧
        digitsVal d = now.hour ∧ digitsVal e = now.minute ∧ digitsVal f = now.second ∧
        digitsVal g = now.microsecond := by
  obtain ⟨hy, hm, hd, hh, hmi, hs, hus⟩ := hv
  have p4 : (10 : Nat) ^ 4 = 10000 := by norm_num
  have p2 : (10 : Nat) ^ 2 = 100 := by norm_num
  have p6 : (10 : Nat) ^ 6 = 1000000 := by norm_num
  obtain ⟨fs1, hrun, hfile, _, _⟩ := write_csv_ok fs now p hOut hSubFile hCsvDir hSite
  refine ⟨fs1,
    (match fs.files (csvPath now p.site_name) with
     | none => [CSV_HEADERS]
     | some rows => rows), hrun, hfile, rfl, fun q => rfl,
    (padZeros 4 now.year).data, (padZeros 2 now.month).data, (padZeros 2 now.day).data,
    (padZeros 2 now.hour).data, (padZeros 2 now.minute).data, (padZeros 2 now.second).data,
    (padZeros 6 now.microsecond).data,
    strftime_full_data now,
    padZeros_length 4 now.year (by omega) (by omega),
    padZeros_length 2 now.month (by omega) (by omega),
    padZeros_length 2 now.day (by omega) (by omega),
    padZeros_length 2 now.hour (by omega) (by omega),
    padZeros_length 2 now.minute (by omega) (by omega),
    padZeros_length 2 now.second (by omega) (by omega),
    padZeros_length 6 now.microsecond (by omega) (by omega),
    ?_,
    digitsVal_padZeros 4 now.year, digitsVal_padZeros 2 now.month,
    digitsVal_padZeros 2 now.day, digitsVal_padZeros 2 now.hour,
    digitsVal_padZeros 2 now.minute, digitsVal_padZeros 2 now.second,
    digitsVal_padZeros 6 now.microsecond⟩
  intro ch hch
  rcases hch with h | h | h | h | h | h | h
  · exact padZeros_digit 4 now.year ch h
  · exact padZeros_digit 2 now.month ch h
  · exact padZeros_digit 2 now.day ch h
  · exact padZeros_digit 2 now.hour ch h
  · exact padZeros_digit 2 now.minute ch h
  · exact padZeros_digit 2 now.second ch h
  · exact padZeros_digit 6 now.microsecond ch h

/-- Witness for C9 at the specification scenario instant. -/
theorem C9_timestamp_format_witness :
    ∃ fs1 prevRows,
      write_csv sample_fs sample_now sample_packet = .ok fs1 ∧
      fs1.files (csvPath sample_now "sas") =
        some (prevRows ++ [mkRow sample_now sample_packet]) ∧
      (mkRow sample_now sample_packet).head? = some (strftime_full sample_now) ∧
      (∀ q : JsonPacket, (mkRow sample_now q).head? = some (strftime_full sample_now)) ∧
      ∃ a b c d e f g : List Char,
        (strftime_full sample_now).data =
          a ++ '-' :: (b ++ '-' :: (c ++ '-' :: (d ++ ':' :: (e ++ ':' :: (f ++ '.' :: g))))) ∧
        a.length = 4 ∧ b.length = 2 ∧ c.length = 2 ∧ d.length = 2 ∧ e.length = 2 ∧
        f.length = 2 ∧ g.length = 6 ∧
        (∀ ch : Char,
          (ch ∈ a ∨ ch ∈ b ∨ ch ∈ c ∨ ch ∈ d ∨ ch ∈ e ∨ ch ∈ f ∨ ch ∈ g) →
          48 ≤ ch.toNat ∧ ch.toNat ≤ 57) ∧
        digitsVal a = sample_now.year ∧ digitsVal b = sample_now.month ∧
        digitsVal c = sample_now.day ∧ digitsVal d = sample_now.hour ∧
        digitsVal e = sample_now.minute ∧ digitsVal f = sample_now.second ∧
        digitsVal g = sample_now.microsecond :=
  C9_timestamp_format sample_fs sample_now sample_packet
    (by decide) (by decide) rfl (by decide) (by decide)

/-- C2: evaluation of the receive loop at the failing input.  A manual
interruption raised while blocked in the receive call is caught by the
except clause, which prints the shutdown message but contains no break or
return, so the iteration reports the loop as still running and a schedule
with an event after the interruption performs a further receive iteration
with the connection still open. -/
theorem C2_interrupt_does_not_stop :
    loop_body sample_fs RecvEvent.interrupt = (sample_fs, ["Stopping..."], true) ∧
    (run_recv_loop sample_fs [RecvEvent.interrupt, RecvEvent.interrupt]).2 = (2, true) :=
  ⟨rfl, rfl⟩

/-- C7: when the connection-address environment variable is absent the
process prints the configuration diagnostic and exits without attempting any
connection; when it is present the listener is started with exactly that
address. -/
theorem C7_env_check (env : Option String) :
    (env = none →
      main_entry env = .exitWithMessage "No 'SOCKET_ADDR' environment variable defined!" ∧
      ∀ a, main_entry env ≠ .listen a) ∧
    (∀ a, env = some a → main_entry env = .listen a) := by
  constructor
  · intro h
    subst h
    refine ⟨rfl, fun a heq => ?_⟩
    simp [main_entry] at heq
  · intro a h
    subst h
    rfl

/-- Witness for C7 at a missing and at a present environment variable. -/
theorem C7_env_check_witness :
    (main_entry none = .exitWithMessage "No 'SOCKET_ADDR' environment variable defined!" ∧
      ∀ a, main_entry none ≠ .listen a) ∧
    main_entry (some "ws://localhost:3000") = .listen "ws://localhost:3000" :=
  ⟨(C7_env_check none).1 rfl,
   (C7_env_check (some "ws://localhost:3000")).2 "ws://localhost:3000" rfl⟩
